import Mathlib

/-!
# Verification of the MIDI input interpretation engine

Shallow embedding of `src/lib/midiInputManager.ts`: dual-hand MIDI input
buffering, chord classification and naming, velocity normalization,
sustain-pedal semantics and the adaptive split estimator.

Modelling conventions:
* Timestamps and millisecond windows are integers (`ℤ`); every scenario of
  the specification uses integral milliseconds.  The two places where the
  source scales by a non-integer constant are embedded exactly over the
  rationals by cross-multiplication:
  `elapsed < window * 0.6` becomes `elapsed * 5 < window * 3`, and
  `Math.round((a + b) / 2)` (JS rounds halves up) becomes
  `Int.fdiv (a + b + 1) 2`; bridging lemmas `half_round_eq_floor` and
  `blendVelocity_eq_floor` prove these equal to the rational-arithmetic
  originals.
* The velocity blend factor is an exact rational in `[0, 1]`; `Rat` values
  in Lean are always reduced with positive denominator, so
  `blend = blend.num / blend.den` exactly.
* JS `Map` (insertion ordered, keyed by pitch) is an association list of
  `ActiveNote`s; `Set` iteration order is insertion order.
* `setTimeout` / `setInterval` are modelled by a pending flag per buffer plus
  explicit `Op.fire` / `Op.tick` transitions which are only enabled while the
  corresponding flag is set (a cancelled timer never fires).
* Code that can throw (the external chord-naming collaborator
  `Chord.detect` from `tonal`, and subscriber callbacks) lives in
  `Except Unit`; the collaborator is a parameter `detect : DetectFn`.
* MIDI pitches are nonnegative in every scenario considered, so JS `%`
  (truncated remainder) agrees with `Int.emod` used here.
-/

namespace MidiSpec

inductive Hand where
  | L
  | R
deriving DecidableEq, Repr

inductive Role where
  | Chord
  | Dyad
  | BassLine
  | Arpeggio
  | Cluster
deriving DecidableEq, Repr

structure BufferedNote where
  midi : ℤ
  velocity : ℤ
  time : ℤ
deriving DecidableEq, Repr

structure ActiveNote where
  midi : ℤ
  velocity : ℤ
  time : ℤ
  sustained : Bool
  hand : Hand
deriving DecidableEq, Repr

/-- `Required<MidiInputManagerConfig>` from the source. -/
structure Config where
  chordWindowMsRight : ℤ
  chordWindowMsLeft : ℤ
  earlyCloseCountRight : ℕ
  earlyCloseCountLeft : ℕ
  rollExtensionMsRight : ℤ
  rollExtensionMsLeft : ℤ
  splitInitialMidi : ℤ
  splitMin : ℤ
  splitMax : ℤ
  splitAdaptIntervalMs : ℤ
  splitShiftThreshold : ℤ
  leftBassArpGapMs : ℤ
  velocityBlendRight : ℚ
  velocityBlendLeft : ℚ
  maxClusterSize : ℕ
  sustainIncludesBuffer : Bool
deriving DecidableEq, Repr

/-- The `DEFAULTS` constant of the source. -/
def DEFAULTS : Config :=
  { chordWindowMsRight := 50
    chordWindowMsLeft := 80
    earlyCloseCountRight := 4
    earlyCloseCountLeft := 3
    rollExtensionMsRight := 180
    rollExtensionMsLeft := 250
    splitInitialMidi := 60
    splitMin := 52
    splitMax := 64
    splitAdaptIntervalMs := 1000
    splitShiftThreshold := 5
    leftBassArpGapMs := 120
    velocityBlendRight := mkRat 1 2
    velocityBlendLeft := mkRat 1 5
    maxClusterSize := 7
    sustainIncludesBuffer := true }

structure ChordEvent where
  hand : Hand
  name : Option String
  inversion : Option ℤ
  notes : List ℤ
  velocities : List ℤ
  role : Role
  root : Option ℤ
  pitchClasses : List ℤ
  timestamp : ℤ
  rawWindowMs : ℤ
deriving DecidableEq, Repr

structure SplitChangeEvent where
  splitMidi : ℤ
  timestamp : ℤ
deriving DecidableEq, Repr

inductive Event where
  | chord (e : ChordEvent)
  | split (e : SplitChangeEvent)
deriving DecidableEq, Repr

structure BufferState where
  notes : List BufferedNote
  firstTime : Option ℤ
  timerPending : Bool
  lastEmissionTime : ℤ
deriving DecidableEq, Repr

structure EngineState where
  splitPoint : ℤ
  bufferL : BufferState
  bufferR : BufferState
  activeNotes : List ActiveNote
  pedalDown : Bool
  recentNoteOns : List ℤ
  adaptTimerActive : Bool
  disposed : Bool
deriving DecidableEq, Repr

/-- The external chord-naming collaborator (`Chord.detect` of `tonal`):
it may throw (`Except.error`), return a null-like value (`none`) or a list
of candidate names. -/
abbrev DetectFn := List String → Except Unit (Option (List String))

/-! ## Pure utilities -/

/-- JS `Math.round(s / 2)` for an integer `s`: rounds halves up.
Agreement with the rational-arithmetic original is proved in
`half_round_eq_floor`. -/
def halfRound (s : ℤ) : ℤ := Int.fdiv (s + 1) 2

/-- Insert into an ascending list (models the effect of
`Array.prototype.sort((a, b) => a - b)`). -/
def insertSorted (x : ℤ) : List ℤ → List ℤ
  | [] => [x]
  | y :: ys => if x ≤ y then x :: y :: ys else y :: insertSorted x ys

/-- Ascending sort of integers, as `sort((a, b) => a - b)` produces. -/
def sortAsc (l : List ℤ) : List ℤ := l.foldr insertSorted []

/-- `Array.from(new Set(l))`: deduplicate keeping first occurrences in order. -/
def dedupFirst (l : List ℤ) : List ℤ :=
  l.foldl (fun acc x => if acc.contains x then acc else acc ++ [x]) []

/-- The `median` method: 64 on an empty list, middle element of the
sorted list for odd length, rounded mean of the two middle ones for even. -/
def median (values : List ℤ) : ℤ :=
  match values with
  | [] => 64
  | _ =>
    let sorted := sortAsc values
    let mid := values.length / 2
    if values.length % 2 = 0 then
      halfRound (sorted.getD (mid - 1) 0 + sorted.getD mid 0)
    else sorted.getD mid 0

/-- The `blendVelocity` method:
`Math.round(median + (original - median) * (1 - blend))`, computed exactly
through the reduced fraction `blend = blend.num / blend.den`.  Agreement
with the rational-arithmetic original is proved in
`blendVelocity_eq_floor`. -/
def blendVelocity (original med : ℤ) (blend : ℚ) : ℤ :=
  med + Int.fdiv (2 * (original - med) * ((blend.den : ℤ) - blend.num) + blend.den)
    (2 * blend.den)

/-- First element of minimal string length: the head of the stable
`detected.sort((a, b) => a.length - b.length)`. -/
def chooseShortest : List String → String
  | [] => ""
  | x :: xs => xs.foldl (fun best y => if y.length < best.length then y else best) x

/-- The `pcToNote` table of `detectChord` (split in two purely for layout). -/
def pcToNote (pc : ℤ) : String :=
  (["C", "C#", "D", "D#", "E", "F"] ++ ["F#", "G", "G#", "A", "A#", "B"]).getD pc.toNat ""

/-! ## The active-note map (JS `Map<number, ActiveNote>`) -/

/-- `map.get(midi)`. -/
def mapGet (m : List ActiveNote) (midi : ℤ) : Option ActiveNote :=
  m.find? (fun an => an.midi = midi)

/-- `map.set(a.midi, a)`: replace in place if the key exists, else append. -/
def mapSet (m : List ActiveNote) (a : ActiveNote) : List ActiveNote :=
  if m.any (fun an => an.midi = a.midi) then
    m.map (fun an => if an.midi = a.midi then a else an)
  else m ++ [a]

/-- `map.delete(midi)`. -/
def mapDelete (m : List ActiveNote) (midi : ℤ) : List ActiveNote :=
  m.filter (fun an => ¬ an.midi = midi)

/-- The pedal-release loop of `handleControlChange`:
`for (const [m, an] of this.activeNotes) if (an.sustained) this.activeNotes.delete(m)`. -/
def releaseSustained (m : List ActiveNote) : List ActiveNote :=
  m.foldl (fun acc an => if an.sustained then mapDelete acc an.midi else acc) m

/-- Mark the entry for pitch `p` (if any) as sustained, leaving every other
entry and every other field untouched. -/
def sustainMark (l : List ActiveNote) (p : ℤ) : List ActiveNote :=
  l.map (fun an => if an.midi = p then { an with sustained := true } else an)

/-- Keep exactly the entries whose `sustained` flag is not set. -/
def unsustained (l : List ActiveNote) : List ActiveNote :=
  l.filter (fun an => an.sustained = false)

/-! ## Classifier and namer -/

/-- The `classifyRole` method (the source also receives the unused `noteSet`). -/
def classifyRole (cfg : Config) (hand : Hand) (noteSet pcs : List ℤ) (windowMs : ℤ) : Role :=
  if cfg.maxClusterSize ≤ pcs.length then Role.Cluster
  else if 3 ≤ pcs.length then Role.Chord
  else if pcs.length = 2 then Role.Dyad
  else if hand = Hand.L ∧ cfg.leftBassArpGapMs < windowMs then Role.BassLine
  else Role.Arpeggio

/-- Pure core of `detectChord`: `null`-like and empty results map to `null`,
otherwise the (stable-sort-by-length) shortest candidate is chosen. -/
def chordNameOf (detected : Option (List String)) : Option String :=
  match detected with
  | none => none
  | some l => if l.isEmpty then none else some (chooseShortest l)

/-- The `detectChord` method: maps pitch classes to letter names and queries
the collaborator; a thrown exception propagates (there is no try/catch). -/
def detectChord (detect : DetectFn) (pcs : List ℤ) : Except Unit (Option String) :=
  match detect (pcs.map pcToNote) with
  | Except.error u => Except.error u
  | Except.ok d => Except.ok (chordNameOf d)

/-- Pure part of the naming block of `processBuffer`: inversion (JS
`indexOf`, -1 when absent, guarded by `inversion !== -1`) and root
(`noteSet[0]`), both only when the detected name is truthy (non-null and
non-empty) and the note set is nonempty. -/
def namingOf (cn : Option String) (noteSet pcs : List ℤ) :
    Option String × Option ℤ × Option ℤ :=
  match cn with
  | none => (none, none, none)
  | some nm =>
    if ¬ nm = "" ∧ 0 < noteSet.length then
      let rootPc := noteSet.headD 0 % 12
      let inv : ℤ := if pcs.contains rootPc then (pcs.indexOf rootPc : ℤ) else -1
      (some nm, if ¬ inv = -1 then some inv else none, some (noteSet.headD 0))
    else (some nm, none, none)

/-- The naming step of `processBuffer`: only roles Chord, Dyad and Cluster
are named; a collaborator exception propagates. -/
def nameInvRoot (detect : DetectFn) (role : Role) (noteSet pcs : List ℤ) :
    Except Unit (Option String × Option ℤ × Option ℤ) :=
  if role = Role.Chord ∨ role = Role.Dyad ∨ role = Role.Cluster then
    match detectChord detect pcs with
    | Except.error u => Except.error u
    | Except.ok cn => Except.ok (namingOf cn noteSet pcs)
  else Except.ok (none, none, none)

/-! ## Engine state helpers -/

def getBuf (s : EngineState) : Hand → BufferState
  | Hand.L => s.bufferL
  | Hand.R => s.bufferR

def setBuf (s : EngineState) (hand : Hand) (b : BufferState) : EngineState :=
  match hand with
  | Hand.L => { s with bufferL := b }
  | Hand.R => { s with bufferR := b }

/-- `resetBuffer`: clear the timer, the notes and the window start. -/
def resetBuffer (b : BufferState) : BufferState :=
  { b with notes := [], firstTime := none, timerPending := false }

def windowOf (cfg : Config) : Hand → ℤ
  | Hand.L => cfg.chordWindowMsLeft
  | Hand.R => cfg.chordWindowMsRight

def earlyCountOf (cfg : Config) : Hand → ℕ
  | Hand.L => cfg.earlyCloseCountLeft
  | Hand.R => cfg.earlyCloseCountRight

def rollExtOf (cfg : Config) : Hand → ℤ
  | Hand.L => cfg.rollExtensionMsLeft
  | Hand.R => cfg.rollExtensionMsRight

def blendOf (cfg : Config) : Hand → ℚ
  | Hand.L => cfg.velocityBlendLeft
  | Hand.R => cfg.velocityBlendRight

/-- One step of the sustained-note gathering loop of `processBuffer`. -/
def gatherStep (hand : Hand) (acc : List ℤ) (an : ActiveNote) : List ℤ :=
  if an.hand = hand ∧ an.sustained = true ∧ acc.contains an.midi = false then
    acc ++ [an.midi]
  else acc

/-- The note set of a closing buffer: the buffered pitches, optionally
extended by currently sustained active pitches of the same hand that are
not already present (in active-map iteration order). -/
def gatherNoteSet (cfg : Config) (hand : Hand) (actives : List ActiveNote)
    (bufNotes : List BufferedNote) : List ℤ :=
  let base := bufNotes.map (fun n => n.midi)
  if cfg.sustainIncludesBuffer then actives.foldl (gatherStep hand) base else base

/-! ## Buffer close (`processBuffer`) -/

/-- The sorted note set emitted by a close of `hand`'s buffer in state `s`. -/
def closedNotes (cfg : Config) (hand : Hand) (s : EngineState) : List ℤ :=
  sortAsc (gatherNoteSet cfg hand s.activeNotes (getBuf s hand).notes)

/-- The sorted distinct pitch classes of a close. -/
def closedPcs (cfg : Config) (hand : Hand) (s : EngineState) : List ℤ :=
  sortAsc (dedupFirst ((closedNotes cfg hand s).map (fun n => n % 12)))

/-- The classified role of a close happening at time `now` for a window
opened at `t0`. -/
def closedRole (cfg : Config) (hand : Hand) (s : EngineState) (now t0 : ℤ) : Role :=
  classifyRole cfg hand (closedNotes cfg hand s) (closedPcs cfg hand s) (now - t0)

/-- The raw velocities of the buffered notes. -/
def rawVelocities (notes : List BufferedNote) : List ℤ :=
  notes.map (fun n => n.velocity)

/-- The normalized velocities of `processBuffer`: one entry per buffered
note, in arrival order, blended toward the window median. -/
def normalizedVelocities (cfg : Config) (hand : Hand) (notes : List BufferedNote) : List ℤ :=
  let medianVel := median (rawVelocities notes)
  notes.map (fun v => blendVelocity v.velocity medianVel (blendOf cfg hand))

/-- The `ChordEvent` assembled by `processBuffer`, given the naming triple. -/
def closedEvent (cfg : Config) (hand : Hand) (s : EngineState) (now t0 : ℤ)
    (nir : Option String × Option ℤ × Option ℤ) : ChordEvent :=
  { hand := hand
    name := nir.1
    inversion := nir.2.1
    notes := closedNotes cfg hand s
    velocities := normalizedVelocities cfg hand (getBuf s hand).notes
    role := closedRole cfg hand s now t0
    root := nir.2.2
    pitchClasses := closedPcs cfg hand s
    timestamp := now
    rawWindowMs := now - t0 }

/-- The engine state after a close of `hand`'s buffer. -/
def closedState (cfg : Config) (hand : Hand) (s : EngineState) : EngineState :=
  setBuf s hand (resetBuffer (getBuf s hand))

/-- The `processBuffer` method.  `now` is `performance.now()` at processing
time.  The guard `!buf.firstTime || buf.notes.length === 0` treats both a
`null` and a zero window start as absent (JS falsiness).  A collaborator
exception propagates out of the whole close and nothing is emitted. -/
def processBuffer (cfg : Config) (detect : DetectFn) (hand : Hand) (now : ℤ)
    (s : EngineState) : Except Unit (EngineState × List Event) :=
  match (getBuf s hand).firstTime with
  | none => Except.ok (closedState cfg hand s, [])
  | some t0 =>
    if t0 = 0 ∨ (getBuf s hand).notes.isEmpty then
      Except.ok (closedState cfg hand s, [])
    else
      match nameInvRoot detect (closedRole cfg hand s now t0) (closedNotes cfg hand s)
          (closedPcs cfg hand s) with
      | Except.error u => Except.error u
      | Except.ok nir =>
        Except.ok (closedState cfg hand s, [Event.chord (closedEvent cfg hand s now t0 nir)])

/-- The naming triple produced by a close when the collaborator answers
`r` without throwing: naming happens only for the Chord, Dyad and Cluster
roles. -/
def closedNir (cfg : Config) (hand : Hand) (s : EngineState) (now t0 : ℤ)
    (r : Option (List String)) : Option String × Option ℤ × Option ℤ :=
  if closedRole cfg hand s now t0 = Role.Chord ∨ closedRole cfg hand s now t0 = Role.Dyad ∨
      closedRole cfg hand s now t0 = Role.Cluster then
    namingOf (chordNameOf r) (closedNotes cfg hand s) (closedPcs cfg hand s)
  else (none, none, none)

/-- The state seen by a synchronous early close: the note appended to the
buffer and the pending timer cleared (`clearTimer` ran). -/
def pushedState (cfg : Config) (hand : Hand) (note : BufferedNote) (s : EngineState) :
    EngineState :=
  setBuf s hand
    { getBuf s hand with notes := (getBuf s hand).notes ++ [note], timerPending := false }

/-- The `pushToBuffer` method.  An empty buffer is opened and a close
scheduled (`timerPending`); otherwise the note is appended and the
early-close check (`count ≥ earlyCount` and elapsed under 60% of the
window, embedded exactly as `elapsed * 5 < window * 3`) may close the
buffer synchronously; else the roll-extension check may reschedule the
timer.  `now` is the current real time used by a synchronous close. -/
def pushToBuffer (cfg : Config) (detect : DetectFn) (hand : Hand) (note : BufferedNote)
    (now : ℤ) (s : EngineState) : Except Unit (EngineState × List Event) :=
  match (getBuf s hand).firstTime with
  | none =>
    Except.ok (setBuf s hand
      { getBuf s hand with notes := [note], firstTime := some note.time, timerPending := true },
      [])
  | some t0 =>
    if earlyCountOf cfg hand ≤ (getBuf s hand).notes.length + 1 ∧
        (note.time - t0) * 5 < windowOf cfg hand * 3 then
      processBuffer cfg detect hand now (pushedState cfg hand note s)
    else if windowOf cfg hand < note.time - t0 ∧ note.time - t0 ≤ rollExtOf cfg hand then
      Except.ok (setBuf s hand
        { getBuf s hand with notes := (getBuf s hand).notes ++ [note], timerPending := true }, [])
    else
      Except.ok (setBuf s hand
        { getBuf s hand with notes := (getBuf s hand).notes ++ [note] }, [])

/-! ## Event entry points -/

/-- `handleNoteOn` with the default timestamp argument
(`time = performance.now()`), so the buffered time and the current time
coincide. -/
def handleNoteOn (cfg : Config) (detect : DetectFn) (midi velocity time : ℤ)
    (s : EngineState) : Except Unit (EngineState × List Event) :=
  if s.disposed then Except.ok (s, [])
  else
    let hand : Hand := if midi < s.splitPoint then Hand.L else Hand.R
    let an : ActiveNote :=
      { midi := midi, velocity := velocity, time := time, sustained := false, hand := hand }
    let s2 := { s with
      activeNotes := mapSet s.activeNotes an
      recentNoteOns := s.recentNoteOns ++ [midi] }
    pushToBuffer cfg detect hand { midi := midi, velocity := velocity, time := time } time s2

/-- `handleNoteOff`. -/
def handleNoteOff (midi : ℤ) (s : EngineState) : EngineState :=
  if s.disposed then s
  else
    match mapGet s.activeNotes midi with
    | none => s
    | some existing =>
      if s.pedalDown then
        { s with activeNotes := mapSet s.activeNotes { existing with sustained := true } }
      else
        { s with activeNotes := mapDelete s.activeNotes midi }

/-- `handleControlChange`: only the sustain pedal (controller 64) has
semantics; `value ≥ 64` means pedal down. -/
def handleControlChange (controller value : ℤ) (s : EngineState) : EngineState :=
  if s.disposed then s
  else if controller = 64 then
    if 64 ≤ value then
      if s.pedalDown then s else { s with pedalDown := true }
    else
      if s.pedalDown then
        { s with pedalDown := false, activeNotes := releaseSustained s.activeNotes }
      else s
  else s

/-- `dispose`: cancel both buffer timers and the adaptive interval; the
instance becomes terminal.  (The subscriber sets live outside the modelled
state: emission is the returned event list.) -/
def dispose (s : EngineState) : EngineState :=
  { s with
    disposed := true
    bufferL := { s.bufferL with timerPending := false }
    bufferR := { s.bufferR with timerPending := false }
    adaptTimerActive := false }

/-! ## Adaptive split estimator -/

/-- The quartile-midpoint candidate of `recomputeSplit`:
`Math.round((sorted[floor(len * 0.25)] + sorted[floor(len * 0.75)]) / 2)`. -/
def splitCenter (history : List ℤ) : ℤ :=
  let sorted := sortAsc history
  let lowQuartile := sorted.getD (history.length / 4) 0
  let highQuartile := sorted.getD (history.length * 3 / 4) 0
  halfRound (lowQuartile + highQuartile)

/-- Clamp the candidate into `[splitMin, splitMax]`:
`Math.min(splitMax, Math.max(splitMin, center))`. -/
def clampSplit (cfg : Config) (center : ℤ) : ℤ :=
  min cfg.splitMax (max cfg.splitMin center)

/-- The history decay at the end of `recomputeSplit`:
`if (length > 128) splice(0, length - 128)`, i.e. keep the last 128. -/
def trimHistory (s : EngineState) : EngineState :=
  if 128 < s.recentNoteOns.length then
    { s with recentNoteOns := s.recentNoteOns.drop (s.recentNoteOns.length - 128) }
  else s

/-- The `recomputeSplit` method, run on each tick of the adaptive interval;
returns the new state and the emitted `SplitChangeEvent`, if any. -/
def recomputeSplit (cfg : Config) (now : ℤ) (s : EngineState) :
    EngineState × Option SplitChangeEvent :=
  if s.recentNoteOns.length < 8 then (s, none)
  else
    let center := splitCenter s.recentNoteOns
    let step :=
      if cfg.splitShiftThreshold ≤ |center - s.splitPoint| then
        let newSplit := clampSplit cfg center
        if ¬ newSplit = s.splitPoint then
          ({ s with splitPoint := newSplit },
           some { splitMidi := newSplit, timestamp := now })
        else (s, none)
      else (s, none)
    (trimHistory step.1, step.2)

/-- The constructor: initial split point from the configuration, empty
buffers, adaptive interval started. -/
def initState (cfg : Config) : EngineState :=
  { splitPoint := cfg.splitInitialMidi
    bufferL := { notes := [], firstTime := none, timerPending := false, lastEmissionTime := 0 }
    bufferR := { notes := [], firstTime := none, timerPending := false, lastEmissionTime := 0 }
    activeNotes := []
    pedalDown := false
    recentNoteOns := []
    adaptTimerActive := true
    disposed := false }

/-! ## Subscriber emission (`emitChord`) -/

/-- A subscribed chord callback; invoking it may throw. -/
abbrev ChordCallback := ChordEvent → Except Unit Unit

/-- The `emitChord` method: `for (const cb of this.chordCallbacks) cb(evt)`
with no exception isolation — in a language with exceptions this is the
sequential composition in the exception monad. -/
def emitChord (cbs : List ChordCallback) (evt : ChordEvent) : Except Unit Unit :=
  match cbs with
  | [] => Except.ok ()
  | cb :: rest =>
    match cb evt with
    | Except.error u => Except.error u
    | Except.ok _ => emitChord rest evt

/-- Instrumented `emitChord`: additionally counts how many callbacks were
invoked before the loop finished or aborted. -/
def emitChordRun (cbs : List ChordCallback) (evt : ChordEvent) : ℕ × Except Unit Unit :=
  match cbs with
  | [] => (0, Except.ok ())
  | cb :: rest =>
    match cb evt with
    | Except.error u => (1, Except.error u)
    | Except.ok _ =>
      let r := emitChordRun rest evt
      (r.1 + 1, r.2)

/-! ## The event-loop transition system -/

/-- One schedulable unit of work of the single-threaded event loop: an
entry-point call, the firing of a pending buffer-close timer, one tick of
the adaptive interval, or `dispose`. -/
inductive Op where
  | noteOn (midi velocity time : ℤ)
  | noteOff (midi : ℤ)
  | control (controller value : ℤ)
  | fire (hand : Hand) (now : ℤ)
  | tick (now : ℤ)
  | disposeOp
deriving DecidableEq, Repr

/-- Execute one unit of work.  A `fire` is a no-op unless that buffer's
timer is pending (a cleared timer never fires); a `tick` is a no-op once
the interval has been cancelled. -/
def execOp (cfg : Config) (detect : DetectFn) : Op → EngineState →
    Except Unit (EngineState × List Event)
  | Op.noteOn midi velocity time, s => handleNoteOn cfg detect midi velocity time s
  | Op.noteOff midi, s => Except.ok (handleNoteOff midi s, [])
  | Op.control c v, s => Except.ok (handleControlChange c v s, [])
  | Op.fire hand now, s =>
    if (getBuf s hand).timerPending then processBuffer cfg detect hand now s
    else Except.ok (s, [])
  | Op.tick now, s =>
    if s.adaptTimerActive then
      let r := recomputeSplit cfg now s
      Except.ok (r.1, (r.2.map Event.split).toList)
    else Except.ok (s, [])
  | Op.disposeOp, s => Except.ok (dispose s, [])

/-- Execute a sequence of units of work, collecting every emitted event. -/
def execOps (cfg : Config) (detect : DetectFn) : List Op → EngineState →
    Except Unit (EngineState × List Event)
  | [], s => Except.ok (s, [])
  | op :: rest, s =>
    match execOp cfg detect op s with
    | Except.error u => Except.error u
    | Except.ok p =>
      match execOps cfg detect rest p.1 with
      | Except.error u => Except.error u
      | Except.ok q => Except.ok (q.1, p.2 ++ q.2)

/-! ## Concrete instances used by witnesses and counterexamples -/

/-- A collaborator that always throws. -/
def dThrow : DetectFn := fun _ => Except.error ()

/-- A collaborator that always returns a null-like result. -/
def dNone : DetectFn := fun _ => Except.ok none

/-- A collaborator that always returns two candidate names. -/
def dTwo : DetectFn := fun _ => Except.ok (some ["Cmaj", "C"])

/-- A subscriber callback that always throws. -/
def cbThrow : ChordCallback := fun _ => Except.error ()

/-- A subscriber callback that always succeeds. -/
def cbOk : ChordCallback := fun _ => Except.ok ()

def evSolo : ChordEvent :=
  { hand := Hand.R, name := none, inversion := none, notes := [60], velocities := [100],
    role := Role.Arpeggio, root := none, pitchClasses := [0], timestamp := 1, rawWindowMs := 50 }

def evDuo : ChordEvent :=
  { hand := Hand.L, name := some "C", inversion := some 0, notes := [48, 52],
    velocities := [80, 82], role := Role.Dyad, root := some 48, pitchClasses := [0, 4],
    timestamp := 90, rawWindowMs := 80 }

/-- The default-configuration round-trip scenario of the specification:
three right-hand note-ons within 10ms, then the window timer fires. -/
def c4Ops : List Op :=
  [Op.noteOn 60 100 1, Op.noteOn 64 90 5, Op.noteOn 67 95 9, Op.fire Hand.R 51]

/-- The engine state after the three note-ons of `c4Ops`. -/
def c4Mid : EngineState :=
  { splitPoint := 60
    bufferL := { notes := [], firstTime := none, timerPending := false, lastEmissionTime := 0 }
    bufferR :=
      { notes := [{ midi := 60, velocity := 100, time := 1 }, { midi := 64, velocity := 90, time := 5 },
                  { midi := 67, velocity := 95, time := 9 }]
        firstTime := some 1, timerPending := true, lastEmissionTime := 0 }
    activeNotes :=
      [{ midi := 60, velocity := 100, time := 1, sustained := false, hand := Hand.R },
       { midi := 64, velocity := 90, time := 5, sustained := false, hand := Hand.R },
       { midi := 67, velocity := 95, time := 9, sustained := false, hand := Hand.R }]
    pedalDown := false
    recentNoteOns := [60, 64, 67]
    adaptTimerActive := true
    disposed := false }

/-- A state whose right-hand buffer holds three notes of a C major chord. -/
def c2State : EngineState :=
  { initState DEFAULTS with
    bufferR :=
      { notes := [{ midi := 60, velocity := 100, time := 1 }, { midi := 64, velocity := 90, time := 4 },
                  { midi := 67, velocity := 95, time := 7 }]
        firstTime := some 1, timerPending := true, lastEmissionTime := 0 } }

/-- A state whose right-hand buffer holds two notes (a dyad). -/
def c2StateW : EngineState :=
  { initState DEFAULTS with
    bufferR :=
      { notes := [{ midi := 62, velocity := 88, time := 2 }, { midi := 69, velocity := 91, time := 5 }]
        firstTime := some 2, timerPending := true, lastEmissionTime := 0 } }

/-- A state whose right-hand buffer holds three notes awaiting a fourth. -/
def c5State : EngineState :=
  { initState DEFAULTS with
    bufferR :=
      { notes := [{ midi := 60, velocity := 100, time := 1 }, { midi := 64, velocity := 90, time := 3 },
                  { midi := 67, velocity := 95, time := 5 }]
        firstTime := some 1, timerPending := true, lastEmissionTime := 0 } }

/-- A state with one buffered right-hand note and a sustained right-hand
active note not present in the buffer. -/
def c10State : EngineState :=
  { initState DEFAULTS with
    bufferR :=
      { notes := [{ midi := 64, velocity := 90, time := 3 }]
        firstTime := some 3, timerPending := true, lastEmissionTime := 0 }
    activeNotes :=
      [{ midi := 60, velocity := 100, time := 1, sustained := true, hand := Hand.R },
       { midi := 64, velocity := 90, time := 3, sustained := false, hand := Hand.R }] }

/-- A pedal-down state with one plain and one sustained active note. -/
def c7State : EngineState :=
  { initState DEFAULTS with
    pedalDown := true
    activeNotes :=
      [{ midi := 60, velocity := 100, time := 1, sustained := false, hand := Hand.R },
       { midi := 48, velocity := 80, time := 1, sustained := true, hand := Hand.L }] }

def c7Note : ActiveNote :=
  { midi := 60, velocity := 100, time := 1, sustained := false, hand := Hand.R }

/-- Eight high pitches in the rolling history, split still at the default. -/
def c8s0 : EngineState := { initState DEFAULTS with recentNoteOns := List.replicate 8 100 }

/-- The state after one estimator tick on `c8s0`: the split has been
clamped up to 64 and the history is unchanged. -/
def c8s1 : EngineState := (recomputeSplit DEFAULTS 1000 c8s0).1

/-- Eight low pitches in the rolling history, split still at the default. -/
def c8w : EngineState := { initState DEFAULTS with recentNoteOns := List.replicate 8 40 }

/-- Configuration whose right blend factor is 1 and left blend factor 0. -/
def c9Cfg : Config := { DEFAULTS with velocityBlendRight := 1, velocityBlendLeft := 0 }

def c9Notes : List BufferedNote :=
  [{ midi := 60, velocity := 100, time := 1 }, { midi := 64, velocity := 90, time := 2 },
   { midi := 67, velocity := 95, time := 3 }]

/-! ## Helper lemmas -/

/-- `halfRound` agrees with the rational-arithmetic original
`Math.round(s / 2) = floor(s / 2 + 1 / 2)`. -/
theorem half_round_eq_floor (s : ℤ) : halfRound s = ⌊(s : ℚ) / 2 + 1 / 2⌋ := by
  have h : (s : ℚ) / 2 + 1 / 2 = ((s + 1 : ℤ) : ℚ) / ((2 : ℕ) : ℚ) := by
    push_cast
    ring
  rw [halfRound, h, Rat.floor_intCast_div_natCast, Int.fdiv_eq_ediv _ (by norm_num)]
  norm_num

/-- `blendVelocity` agrees with the rational-arithmetic original
`floor(median + (original - median) * (1 - blend) + 1 / 2)`. -/
theorem blendVelocity_eq_floor (original med : ℤ) (blend : ℚ) :
    blendVelocity original med blend =
      ⌊(med : ℚ) + ((original : ℚ) - (med : ℚ)) * (1 - blend) + 1 / 2⌋ := by
  have hden : ((blend.den : ℚ)) ≠ 0 := by
    exact_mod_cast blend.den_pos.ne'
  have hnum : (blend.num : ℚ) = blend * (blend.den : ℚ) :=
    (div_eq_iff hden).mp (Rat.num_div_den blend)
  have hX : ((original : ℚ) - (med : ℚ)) * (1 - blend) + 1 / 2 =
      ((2 * (original - med) * ((blend.den : ℤ) - blend.num) + blend.den : ℤ) : ℚ) /
        (((2 * blend.den : ℕ)) : ℚ) := by
    rw [eq_div_iff (by positivity)]
    push_cast
    linear_combination (2 * ((original : ℚ) - (med : ℚ))) * hnum
  rw [blendVelocity, add_assoc, Int.floor_int_add, hX, Rat.floor_intCast_div_natCast,
    Int.fdiv_eq_ediv _ (by positivity)]
  push_cast
  ring_nf

theorem length_insertSorted (x : ℤ) (l : List ℤ) :
    (insertSorted x l).length = l.length + 1 := by
  induction l with
  | nil => rfl
  | cons y ys ih =>
    by_cases h : x ≤ y <;> simp [insertSorted, h, ih]

theorem length_sortAsc (l : List ℤ) : (sortAsc l).length = l.length := by
  induction l with
  | nil => rfl
  | cons x xs ih => simp [sortAsc, length_insertSorted] at ih ⊢; omega

theorem gatherFold_length_mono (hand : Hand) (actives : List ActiveNote) :
    ∀ acc : List ℤ, acc.length ≤ (actives.foldl (gatherStep hand) acc).length := by
  induction actives with
  | nil => intro acc; simp
  | cons an rest ih =>
    intro acc
    have hstep : acc.length ≤ (gatherStep hand acc an).length := by
      unfold gatherStep
      split <;> simp
    calc acc.length ≤ (gatherStep hand acc an).length := hstep
      _ ≤ _ := ih (gatherStep hand acc an)

theorem gatherFold_length_grow (hand : Hand) (actives : List ActiveNote) :
    ∀ acc : List ℤ,
      (∃ an ∈ actives, an.hand = hand ∧ an.sustained = true ∧ acc.contains an.midi = false) →
      acc.length < (actives.foldl (gatherStep hand) acc).length := by
  induction actives with
  | nil => intro acc h; simp at h
  | cons a rest ih =>
    intro acc h
    by_cases ha : a.hand = hand ∧ a.sustained = true ∧ acc.contains a.midi = false
    · obtain ⟨ha1, ha2, ha3⟩ := ha
      have hnm : a.midi ∉ acc := by simpa using ha3
      have hlen : acc.length < (gatherStep hand acc a).length := by
        simp [gatherStep, ha1, ha2, hnm]
      calc acc.length < (gatherStep hand acc a).length := hlen
        _ ≤ _ := gatherFold_length_mono hand rest _
    · obtain ⟨an, hmem, hprops⟩ := h
      rcases List.mem_cons.mp hmem with rfl | hmem2
      · exact absurd hprops ha
      · have hstep : gatherStep hand acc a = acc := by
          unfold gatherStep
          exact if_neg ha
        simp only [List.foldl_cons, hstep]
        exact ih acc ⟨an, hmem2, hprops⟩

theorem execOps_append (cfg : Config) (detect : DetectFn) (l1 l2 : List Op) (s : EngineState) :
    execOps cfg detect (l1 ++ l2) s =
      match execOps cfg detect l1 s with
      | Except.error u => Except.error u
      | Except.ok p =>
        match execOps cfg detect l2 p.1 with
        | Except.error u => Except.error u
        | Except.ok q => Except.ok (q.1, p.2 ++ q.2) := by
  induction l1 generalizing s with
  | nil =>
    simp only [List.nil_append, execOps]
    cases execOps cfg detect l2 s <;> simp
  | cons op rest ih =>
    simp only [List.cons_append, execOps, List.append_eq]
    cases hop : execOp cfg detect op s with
    | error u => rfl
    | ok p =>
      dsimp only
      rw [ih p.1]
      cases h2 : execOps cfg detect rest p.1 with
      | error u => rfl
      | ok q =>
        dsimp only
        cases h3 : execOps cfg detect l2 q.1 <;> simp [h3]

theorem processBuffer_ok (cfg : Config) (detect : DetectFn) (hand : Hand) (now t0 : ℤ)
    (s : EngineState) (nir : Option String × Option ℤ × Option ℤ)
    (h1 : (getBuf s hand).firstTime = some t0) (h0 : ¬ t0 = 0)
    (h3 : (getBuf s hand).notes.isEmpty = false)
    (hnir : nameInvRoot detect (closedRole cfg hand s now t0) (closedNotes cfg hand s)
        (closedPcs cfg hand s) = Except.ok nir) :
    processBuffer cfg detect hand now s =
      Except.ok (closedState cfg hand s, [Event.chord (closedEvent cfg hand s now t0 nir)]) := by
  simp [processBuffer, h1, h0, h3, hnir]

theorem getBuf_setBuf (s : EngineState) (hand : Hand) (b : BufferState) :
    getBuf (setBuf s hand b) hand = b := by
  cases hand <;> rfl

theorem nameInvRoot_ok_of (cfg : Config) (detect : DetectFn) (hand : Hand) (now t0 : ℤ)
    (s : EngineState) (r : Option (List String))
    (hd : detect ((closedPcs cfg hand s).map pcToNote) = Except.ok r) :
    nameInvRoot detect (closedRole cfg hand s now t0) (closedNotes cfg hand s)
        (closedPcs cfg hand s) = Except.ok (closedNir cfg hand s now t0 r) := by
  by_cases hrole : closedRole cfg hand s now t0 = Role.Chord ∨
      closedRole cfg hand s now t0 = Role.Dyad ∨ closedRole cfg hand s now t0 = Role.Cluster
  · rw [closedNir, if_pos hrole]
    rw [nameInvRoot, if_pos hrole, detectChord, hd]
  · rw [closedNir, if_neg hrole]
    rw [nameInvRoot, if_neg hrole]

theorem nameInvRoot_ok_named (detect : DetectFn) (role : Role) (noteSet pcs : List ℤ)
    (r : Option (List String))
    (hrole : role = Role.Chord ∨ role = Role.Dyad ∨ role = Role.Cluster)
    (hd : detect (pcs.map pcToNote) = Except.ok r) :
    nameInvRoot detect role noteSet pcs = Except.ok (namingOf (chordNameOf r) noteSet pcs) := by
  simp [nameInvRoot, hrole, detectChord, hd]

theorem blendVelocity_one (original med : ℤ) : blendVelocity original med 1 = med := by
  rw [blendVelocity_eq_floor]
  have h : (med : ℚ) + ((original : ℚ) - (med : ℚ)) * (1 - 1) + 1 / 2 = (med : ℚ) + 1 / 2 := by
    ring
  rw [h, Int.floor_int_add]
  norm_num

theorem blendVelocity_zero (original med : ℤ) : blendVelocity original med 0 = original := by
  rw [blendVelocity_eq_floor]
  have h : (med : ℚ) + ((original : ℚ) - (med : ℚ)) * (1 - 0) + 1 / 2 =
      (original : ℚ) + 1 / 2 := by ring
  rw [h, Int.floor_int_add]
  norm_num

theorem midi_map_update (m : List ActiveNote) (p : ℤ) :
    (sustainMark m p).map (fun an => an.midi) = m.map (fun an => an.midi) := by
  rw [sustainMark, List.map_map]
  apply List.map_congr_left
  intro a _
  by_cases h : a.midi = p <;> simp [h]

theorem mapSet_found (m : List ActiveNote) (p : ℤ) (a : ActiveNote)
    (hnd : (m.map (fun an => an.midi)).Nodup) (hget : mapGet m p = some a) :
    mapSet m { a with sustained := true } = sustainMark m p := by
  rw [sustainMark]
  have hmem : a ∈ m := List.mem_of_find?_eq_some hget
  have hmidi : a.midi = p := by simpa using List.find?_some hget
  have hany : m.any (fun an => an.midi = ({ a with sustained := true } : ActiveNote).midi) = true :=
    List.any_eq_true.mpr ⟨a, hmem, by simp⟩
  unfold mapSet
  rw [if_pos hany]
  apply List.map_congr_left
  intro an hmeman
  by_cases h : an.midi = p
  · have han : an = a := List.inj_on_of_nodup_map hnd hmeman hmem (by rw [h, hmidi])
    simp [han, hmidi, h]
  · have h2 : ¬ an.midi = ({ a with sustained := true } : ActiveNote).midi := by
      simpa [hmidi] using h
    simp [h, h2]

theorem releaseSustained_aux (l : List ActiveNote) :
    ∀ acc : List ActiveNote,
      l.foldl (fun acc an => if an.sustained then mapDelete acc an.midi else acc) acc =
        acc.filter (fun x => decide (∀ an ∈ l, an.sustained = true → ¬ an.midi = x.midi)) := by
  induction l with
  | nil =>
    intro acc
    simp
  | cons a l ih =>
    intro acc
    cases ha : a.sustained with
    | false =>
      simp only [List.foldl_cons, ha, Bool.false_eq_true, if_false, ih]
      apply List.filter_congr
      intro x _
      rw [decide_eq_decide]
      simp [List.forall_mem_cons, ha]
    | true =>
      simp only [List.foldl_cons, ha, if_true]
      rw [ih (mapDelete acc a.midi), mapDelete, List.filter_filter]
      apply List.filter_congr
      intro x _
      rw [Bool.and_comm, ← Bool.decide_and, decide_eq_decide]
      simp only [List.forall_mem_cons, ha, true_implies]
      constructor
      · rintro ⟨h1, h2⟩
        exact ⟨fun he => h1 he.symm, h2⟩
      · rintro ⟨h1, h2⟩
        exact ⟨fun he => h1 he.symm, h2⟩

theorem releaseSustained_eq_filter (m : List ActiveNote)
    (hnd : (m.map (fun an => an.midi)).Nodup) :
    releaseSustained m = unsustained m := by
  rw [releaseSustained, unsustained, releaseSustained_aux m m]
  apply List.filter_congr
  intro x hx
  rw [decide_eq_decide]
  constructor
  · intro h
    by_contra hsus
    have hxs : x.sustained = true := by
      cases hval : x.sustained
      · exact absurd hval hsus
      · rfl
    exact h x hx hxs rfl
  · intro hsus an han hsusan heq
    have : an = x := List.inj_on_of_nodup_map hnd han hx heq
    rw [this] at hsusan
    rw [hsusan] at hsus
    exact absurd hsus (by simp)

theorem dispose_idem (s : EngineState) : dispose (dispose s) = dispose s := rfl

theorem execOp_dispose (cfg : Config) (detect : DetectFn) (s : EngineState) (op : Op) :
    execOp cfg detect op (dispose s) = Except.ok (dispose s, []) := by
  cases op with
  | noteOn m v t => simp [execOp, handleNoteOn, dispose]
  | noteOff m => simp [execOp, handleNoteOff, dispose]
  | control c v => simp [execOp, handleControlChange, dispose]
  | fire hand now => cases hand <;> simp [execOp, getBuf, dispose]
  | tick now => simp [execOp, dispose]
  | disposeOp => simp [execOp, dispose_idem]

/-! ## Claim theorems -/

/-- C1 counterexample: with two subscribed callbacks of which the first
throws, emission propagates the exception (`emitChord` is `error`, not
`ok`) and only one of the two callbacks is invoked — the exception is not
isolated and delivery to the other subscriber is lost. -/
theorem emitChord_throwing_subscriber_counterexample :
    emitChord [cbThrow, cbOk] evSolo = Except.error () ∧
      (emitChordRun [cbThrow, cbOk] evSolo).1 = 1 :=
  ⟨rfl, rfl⟩

/-- C1 (amended): if every callback before `c` succeeds and `c` throws,
emission of the event propagates the exception out of `emitChord`, and
exactly the callbacks up to and including `c` (in subscription order) are
invoked — the callbacks subscribed after the throwing one are not. -/
theorem emitChord_propagates_first_throw (pre post : List ChordCallback) (c : ChordCallback)
    (evt : ChordEvent) (hpre : emitChord pre evt = Except.ok ())
    (hc : c evt = Except.error ()) :
    emitChord (pre ++ c :: post) evt = Except.error () ∧
      (emitChordRun (pre ++ c :: post) evt).1 = pre.length + 1 := by
  induction pre with
  | nil => simp [emitChord, emitChordRun, hc]
  | cons p ps ih =>
    cases hp : p evt with
    | error u => simp [emitChord, hp] at hpre
    | ok u =>
      have hpre2 : emitChord ps evt = Except.ok () := by
        simpa [emitChord, hp] using hpre
      obtain ⟨ih1, ih2⟩ := ih hpre2
      constructor
      · simpa [emitChord, hp] using ih1
      · simp [emitChordRun, hp, ih2]

/-- C1 witness: the amended statement at a concrete subscription list. -/
theorem emitChord_propagates_first_throw_witness :
    emitChord [cbOk] evDuo = Except.ok () ∧ cbThrow evDuo = Except.error () ∧
      emitChord ([cbOk] ++ cbThrow :: [cbOk]) evDuo = Except.error () ∧
      (emitChordRun ([cbOk] ++ cbThrow :: [cbOk]) evDuo).1 = [cbOk].length + 1 :=
  ⟨rfl, rfl, (emitChord_propagates_first_throw [cbOk] [cbOk] cbThrow evDuo rfl rfl).1,
    (emitChord_propagates_first_throw [cbOk] [cbOk] cbThrow evDuo rfl rfl).2⟩

/-- C3 (confirmed): after `dispose`, every possible continuation of the
event loop — any sequence of `handleNoteOn` / `handleNoteOff` /
`handleControlChange` calls, timer firings, estimator ticks and repeated
disposals — throws no exception, leaves the state unchanged, and emits no
`ChordEvent` or `SplitChangeEvent` (both buffer timers and the adaptive
interval are cancelled, so `fire` and `tick` are disabled). -/
theorem dispose_terminal (cfg : Config) (detect : DetectFn) (s : EngineState) (ops : List Op) :
    execOps cfg detect ops (dispose s) = Except.ok (dispose s, []) := by
  induction ops with
  | nil => rfl
  | cons op rest ih =>
    simp [execOps, execOp_dispose cfg detect s op, ih]

/-- C6 (confirmed): role classification follows the priority order on the
distinct pitch-class count: at least `maxClusterSize` (default 7) classes
give `Cluster`; otherwise at least 3 give `Chord`; otherwise exactly 2
give `Dyad`; a single class gives `BassLine` exactly when the hand is Left
and the window duration exceeds `leftBassArpGapMs`, and `Arpeggio` in
every other single-class case. -/
theorem classifyRole_priority (cfg : Config) (hand : Hand) (noteSet pcs : List ℤ) (w : ℤ) :
    (cfg.maxClusterSize ≤ pcs.length → classifyRole cfg hand noteSet pcs w = Role.Cluster) ∧
    (pcs.length < cfg.maxClusterSize → 3 ≤ pcs.length →
      classifyRole cfg hand noteSet pcs w = Role.Chord) ∧
    (pcs.length < cfg.maxClusterSize → pcs.length = 2 →
      classifyRole cfg hand noteSet pcs w = Role.Dyad) ∧
    (pcs.length < cfg.maxClusterSize → pcs.length = 1 →
      ((hand = Hand.L ∧ cfg.leftBassArpGapMs < w) →
        classifyRole cfg hand noteSet pcs w = Role.BassLine) ∧
      (¬ (hand = Hand.L ∧ cfg.leftBassArpGapMs < w) →
        classifyRole cfg hand noteSet pcs w = Role.Arpeggio)) := by
  refine ⟨fun h1 => ?_, fun h1 h2 => ?_, fun h1 h2 => ?_, fun h1 h2 => ⟨fun h3 => ?_, fun h3 => ?_⟩⟩ <;>
    simp only [classifyRole] <;> split_ifs <;> first | rfl | omega

/-- C6 witness: the Dyad, BassLine and Arpeggio boundary cases at the
default configuration. -/
theorem classifyRole_priority_witness :
    (([0, 4] : List ℤ).length < DEFAULTS.maxClusterSize ∧ ([0, 4] : List ℤ).length = 2 ∧
      classifyRole DEFAULTS Hand.R [60, 64] [0, 4] 50 = Role.Dyad) ∧
    (([0] : List ℤ).length = 1 ∧ (Hand.L = Hand.L ∧ DEFAULTS.leftBassArpGapMs < 130) ∧
      classifyRole DEFAULTS Hand.L [36] [0] 130 = Role.BassLine) ∧
    (¬ (Hand.R = Hand.L ∧ DEFAULTS.leftBassArpGapMs < (130 : ℤ)) ∧
      classifyRole DEFAULTS Hand.R [72] [0] 130 = Role.Arpeggio) :=
  ⟨⟨by decide, by decide,
      (classifyRole_priority DEFAULTS Hand.R [60, 64] [0, 4] 50).2.2.1 (by decide) (by decide)⟩,
    ⟨by decide, by decide,
      ((classifyRole_priority DEFAULTS Hand.L [36] [0] 130).2.2.2 (by decide) (by decide)).1
        (by decide)⟩,
    ⟨by decide,
      ((classifyRole_priority DEFAULTS Hand.R [72] [0] 130).2.2.2 (by decide) (by decide)).2
        (by decide)⟩⟩

/-- C9 (confirmed): with blend factor 1 every normalized velocity of a
window equals the median of the window's raw velocities, and with blend
factor 0 the normalized velocities are exactly the raw input velocities.
`normalizedVelocities` is precisely the velocity list put into the
`ChordEvent` by `processBuffer` (see `closedEvent`). -/
theorem velocity_blend_extremes (cfg : Config) (hand : Hand) (notes : List BufferedNote) :
    (blendOf cfg hand = 1 →
      normalizedVelocities cfg hand notes = notes.map (fun _ => median (rawVelocities notes))) ∧
    (blendOf cfg hand = 0 →
      normalizedVelocities cfg hand notes = notes.map (fun n => n.velocity)) := by
  constructor
  · intro h
    simp [normalizedVelocities, h, blendVelocity_one]
  · intro h
    simp [normalizedVelocities, h, blendVelocity_zero]

/-- C2 counterexample: a right-hand Chord-role buffer close with a
collaborator that throws; `processBuffer` returns the propagated exception
and no `ChordEvent` is emitted, so the failure is not caught locally and
`name` does not degrade to null. -/
theorem collaborator_throw_counterexample :
    closedRole DEFAULTS Hand.R c2State 51 1 = Role.Chord ∧
      processBuffer DEFAULTS dThrow Hand.R 51 c2State = Except.error () :=
  ⟨rfl, rfl⟩

/-- C2 (amended): for a buffer close whose role is Chord, Dyad or Cluster,
if the collaborator returns a null-like (`none`) or empty result, the
failure is absorbed locally, the event's name degrades to null, and the
`ChordEvent` is still emitted with all its other fields computed
(`closedEvent` computes notes, velocities, role, pitch classes, timestamp
and window from the buffer as usual); a collaborator that throws is not
caught (see the counterexample). -/
theorem nullish_collaborator_degrades (cfg : Config) (detect : DetectFn) (hand : Hand)
    (now t0 : ℤ) (s : EngineState)
    (h1 : (getBuf s hand).firstTime = some t0) (h0 : ¬ t0 = 0)
    (h3 : (getBuf s hand).notes.isEmpty = false)
    (hrole : closedRole cfg hand s now t0 = Role.Chord ∨
      closedRole cfg hand s now t0 = Role.Dyad ∨ closedRole cfg hand s now t0 = Role.Cluster)
    (hnull : detect ((closedPcs cfg hand s).map pcToNote) = Except.ok none ∨
      detect ((closedPcs cfg hand s).map pcToNote) = Except.ok (some [])) :
    processBuffer cfg detect hand now s =
      Except.ok (closedState cfg hand s,
        [Event.chord (closedEvent cfg hand s now t0 (none, none, none))]) ∧
      (closedEvent cfg hand s now t0 (none, none, none)).name = none := by
  have hnir : nameInvRoot detect (closedRole cfg hand s now t0) (closedNotes cfg hand s)
      (closedPcs cfg hand s) = Except.ok (none, none, none) := by
    rcases hnull with hd | hd
    · simpa [chordNameOf, namingOf] using
        nameInvRoot_ok_named detect _ (closedNotes cfg hand s) (closedPcs cfg hand s) none hrole hd
    · simpa [chordNameOf, namingOf] using
        nameInvRoot_ok_named detect _ (closedNotes cfg hand s) (closedPcs cfg hand s)
          (some []) hrole hd
  exact ⟨processBuffer_ok cfg detect hand now t0 s (none, none, none) h1 h0 h3 hnir, rfl⟩

/-- C2 witness: a Dyad-role close with a null-like collaborator result. -/
theorem nullish_collaborator_degrades_witness :
    (getBuf c2StateW Hand.R).firstTime = some 2 ∧ ¬ (2 : ℤ) = 0 ∧
      (getBuf c2StateW Hand.R).notes.isEmpty = false ∧
      closedRole DEFAULTS Hand.R c2StateW 51 2 = Role.Dyad ∧
      dNone ((closedPcs DEFAULTS Hand.R c2StateW).map pcToNote) = Except.ok none ∧
      processBuffer DEFAULTS dNone Hand.R 51 c2StateW =
        Except.ok (closedState DEFAULTS Hand.R c2StateW,
          [Event.chord (closedEvent DEFAULTS Hand.R c2StateW 51 2 (none, none, none))]) ∧
      (closedEvent DEFAULTS Hand.R c2StateW 51 2 (none, none, none)).name = none :=
  ⟨rfl, by decide, rfl, rfl, rfl,
    (nullish_collaborator_degrades DEFAULTS dNone Hand.R 51 2 c2StateW rfl (by decide) rfl
      (Or.inr (Or.inl rfl)) (Or.inl rfl)).1,
    (nullish_collaborator_degrades DEFAULTS dNone Hand.R 51 2 c2StateW rfl (by decide) rfl
      (Or.inr (Or.inl rfl)) (Or.inl rfl)).2⟩

/-- C7 (confirmed): with the pedal down, `handleNoteOff p` keeps `p`'s
active entry and only sets its `sustained` flag (no other entry and no
other field changes); a subsequent pedal release (controller 64, value
below 64) then clears the pedal flag and deletes exactly the active
entries whose `sustained` flag is set, keeping all others. -/
theorem sustain_pedal_semantics (s : EngineState) (p v : ℤ) (a : ActiveNote)
    (hdisp : s.disposed = false) (hped : s.pedalDown = true)
    (hget : mapGet s.activeNotes p = some a)
    (hnd : (s.activeNotes.map (fun an => an.midi)).Nodup)
    (hv : v < 64) :
    handleNoteOff p s = { s with activeNotes := sustainMark s.activeNotes p } ∧
    handleControlChange 64 v (handleNoteOff p s) =
      { s with
        pedalDown := false
        activeNotes := unsustained (sustainMark s.activeNotes p) } := by
  have hoff : handleNoteOff p s = { s with activeNotes := sustainMark s.activeNotes p } := by
    rw [handleNoteOff, if_neg (by simp [hdisp])]
    rw [hget]
    simp only [hped, if_true]
    rw [mapSet_found s.activeNotes p a hnd hget]
  refine ⟨hoff, ?_⟩
  rw [hoff]
  have hnd2 : ((sustainMark s.activeNotes p).map (fun an => an.midi)).Nodup := by
    rw [midi_map_update]
    exact hnd
  rw [handleControlChange]
  rw [if_neg (by simp [hdisp])]
  rw [if_pos rfl, if_neg (by omega)]
  simp only [hped, if_true]
  rw [releaseSustained_eq_filter _ hnd2]

/-- C7 witness: pedal held, key 60 released then pedal released, on a
two-entry active map. -/
theorem sustain_pedal_semantics_witness :
    c7State.disposed = false ∧ c7State.pedalDown = true ∧
      mapGet c7State.activeNotes 60 = some c7Note ∧
      (c7State.activeNotes.map (fun an => an.midi)).Nodup ∧ (0 : ℤ) < 64 ∧
      handleNoteOff 60 c7State = { c7State with activeNotes := sustainMark c7State.activeNotes 60 } ∧
      handleControlChange 64 0 (handleNoteOff 60 c7State) =
        { c7State with
          pedalDown := false
          activeNotes := unsustained (sustainMark c7State.activeNotes 60) } :=
  ⟨rfl, rfl, rfl, by decide, by decide,
    (sustain_pedal_semantics c7State 60 0 c7Note rfl rfl rfl (by decide) (by decide)).1,
    (sustain_pedal_semantics c7State 60 0 c7Note rfl rfl rfl (by decide) (by decide)).2⟩

/-- C8 counterexample: with the default configuration and eight pitches of
value 100 observed once, the first estimator tick moves the split from 60
to the clamp boundary 64 and emits; the second tick runs with zero new
notes fed since the first and with a quartile midpoint (100) differing
from the current split (64) by 36, which is at least the threshold 5 —
yet the split point does not change and no `SplitChangeEvent` is emitted,
because the clamped midpoint equals the current split. -/
theorem recomputeSplit_counterexample :
    (recomputeSplit DEFAULTS 1000 c8s0).2 = some { splitMidi := 64, timestamp := 1000 } ∧
      c8s1.splitPoint = 64 ∧ c8s1.recentNoteOns = c8s0.recentNoteOns ∧
      DEFAULTS.splitShiftThreshold ≤ |splitCenter c8s1.recentNoteOns - c8s1.splitPoint| ∧
      recomputeSplit DEFAULTS 2000 c8s1 = (c8s1, none) := by
  refine ⟨by decide, by decide, by decide, by decide, by decide⟩

/-- C8 (amended): on an estimator tick, if the rolling history holds fewer
than 8 pitches in total the split point never changes (the source guard is
on the total history length, not on the notes fed since the last tick);
and if the 25th/75th-percentile midpoint of the history differs from the
current split by at least `splitShiftThreshold` AND its clamp into
`[splitMin, splitMax]` differs from the current split, the split point
changes to that clamped midpoint and a `SplitChangeEvent` is emitted. -/
theorem recomputeSplit_spec (cfg : Config) (now : ℤ) (s : EngineState) :
    (s.recentNoteOns.length < 8 → recomputeSplit cfg now s = (s, none)) ∧
    (8 ≤ s.recentNoteOns.length →
      cfg.splitShiftThreshold ≤ |splitCenter s.recentNoteOns - s.splitPoint| →
      ¬ clampSplit cfg (splitCenter s.recentNoteOns) = s.splitPoint →
      (recomputeSplit cfg now s).1.splitPoint = clampSplit cfg (splitCenter s.recentNoteOns) ∧
      (recomputeSplit cfg now s).2 =
        some { splitMidi := clampSplit cfg (splitCenter s.recentNoteOns), timestamp := now }) := by
  have htrim : ∀ s2 : EngineState, (trimHistory s2).splitPoint = s2.splitPoint := by
    intro s2
    rw [trimHistory]
    split <;> rfl
  constructor
  · intro hlen
    rw [recomputeSplit, if_pos hlen]
  · intro hlen hthr hne
    rw [recomputeSplit, if_neg (by omega)]
    simp only [hthr, if_true, hne, if_false]
    exact ⟨htrim _, rfl⟩

/-- C8 witness: eight pitches of value 40 move the default split 60 down
to the clamp boundary 52 with an emitted event; an empty history leaves
the initial state untouched. -/
theorem recomputeSplit_spec_witness :
    ((initState DEFAULTS).recentNoteOns.length < 8 ∧
      recomputeSplit DEFAULTS 500 (initState DEFAULTS) = (initState DEFAULTS, none)) ∧
    (8 ≤ c8w.recentNoteOns.length ∧
      DEFAULTS.splitShiftThreshold ≤ |splitCenter c8w.recentNoteOns - c8w.splitPoint| ∧
      ¬ clampSplit DEFAULTS (splitCenter c8w.recentNoteOns) = c8w.splitPoint ∧
      (recomputeSplit DEFAULTS 500 c8w).1.splitPoint =
        clampSplit DEFAULTS (splitCenter c8w.recentNoteOns) ∧
      (recomputeSplit DEFAULTS 500 c8w).2 =
        some { splitMidi := clampSplit DEFAULTS (splitCenter c8w.recentNoteOns),
               timestamp := 500 }) :=
  ⟨⟨by decide, (recomputeSplit_spec DEFAULTS 500 (initState DEFAULTS)).1 (by decide)⟩,
    ⟨by decide, by decide, by decide,
      ((recomputeSplit_spec DEFAULTS 500 c8w).2 (by decide) (by decide) (by decide)).1,
      ((recomputeSplit_spec DEFAULTS 500 c8w).2 (by decide) (by decide) (by decide)).2⟩⟩

/-- C5 (confirmed): when a pushed note makes the buffer reach the hand's
`earlyCloseCount` while the elapsed time since window start is still under
60% of the hand's window, the pending timer is cancelled and the buffer
closes and emits synchronously at the pushed note's arrival time (the
event timestamp is the note's time, the window length is measured to it,
and the buffer is left reset with no pending timer), rather than waiting
for the remaining window time.  (The collaborator is assumed to answer;
a throwing collaborator is claim C2's concern.) -/
theorem early_close_immediate (cfg : Config) (detect : DetectFn) (hand : Hand)
    (note : BufferedNote) (s : EngineState) (t0 : ℤ) (r : Option (List String))
    (h1 : (getBuf s hand).firstTime = some t0) (h0 : ¬ t0 = 0)
    (hcount : earlyCountOf cfg hand ≤ (getBuf s hand).notes.length + 1)
    (htime : (note.time - t0) * 5 < windowOf cfg hand * 3)
    (hd : detect ((closedPcs cfg hand (pushedState cfg hand note s)).map pcToNote) =
      Except.ok r) :
    pushToBuffer cfg detect hand note note.time s =
      Except.ok (closedState cfg hand (pushedState cfg hand note s),
        [Event.chord (closedEvent cfg hand (pushedState cfg hand note s) note.time t0
          (closedNir cfg hand (pushedState cfg hand note s) note.time t0 r))]) ∧
    (closedEvent cfg hand (pushedState cfg hand note s) note.time t0
      (closedNir cfg hand (pushedState cfg hand note s) note.time t0 r)).timestamp = note.time ∧
    (getBuf (closedState cfg hand (pushedState cfg hand note s)) hand).timerPending = false ∧
    (getBuf (closedState cfg hand (pushedState cfg hand note s)) hand).notes = [] ∧
    (getBuf (closedState cfg hand (pushedState cfg hand note s)) hand).firstTime = none := by
  have h1p : (getBuf (pushedState cfg hand note s) hand).firstTime = some t0 := by
    rw [pushedState, getBuf_setBuf]
    exact h1
  have h3p : (getBuf (pushedState cfg hand note s) hand).notes.isEmpty = false := by
    rw [pushedState, getBuf_setBuf]
    simp
  have hpb := processBuffer_ok cfg detect hand note.time t0 (pushedState cfg hand note s)
    (closedNir cfg hand (pushedState cfg hand note s) note.time t0 r) h1p h0 h3p
    (nameInvRoot_ok_of cfg detect hand note.time t0 (pushedState cfg hand note s) r hd)
  refine ⟨?_, rfl, ?_, ?_, ?_⟩
  · rw [pushToBuffer]
    rw [h1]
    dsimp only
    rw [if_pos ⟨hcount, htime⟩]
    exact hpb
  all_goals rw [closedState, getBuf_setBuf, resetBuffer]

/-- C5 witness: a fourth right-hand note at time 8 into a window opened at
time 1 (elapsed 7ms, under 60% of the 50ms default window) closes and
emits immediately at time 8. -/
theorem early_close_immediate_witness :
    (getBuf c5State Hand.R).firstTime = some 1 ∧ ¬ (1 : ℤ) = 0 ∧
      earlyCountOf DEFAULTS Hand.R ≤ (getBuf c5State Hand.R).notes.length + 1 ∧
      (((8 : ℤ) - 1) * 5 < windowOf DEFAULTS Hand.R * 3) ∧
      pushToBuffer DEFAULTS dNone Hand.R { midi := 71, velocity := 97, time := 8 } 8 c5State =
        Except.ok
          (closedState DEFAULTS Hand.R
            (pushedState DEFAULTS Hand.R { midi := 71, velocity := 97, time := 8 } c5State),
          [Event.chord
            (closedEvent DEFAULTS Hand.R
              (pushedState DEFAULTS Hand.R { midi := 71, velocity := 97, time := 8 } c5State) 8 1
              (closedNir DEFAULTS Hand.R
                (pushedState DEFAULTS Hand.R { midi := 71, velocity := 97, time := 8 } c5State)
                8 1 none))]) ∧
      (getBuf
        (closedState DEFAULTS Hand.R
          (pushedState DEFAULTS Hand.R { midi := 71, velocity := 97, time := 8 } c5State))
        Hand.R).timerPending = false :=
  ⟨rfl, by decide, by decide, by decide,
    (early_close_immediate DEFAULTS dNone Hand.R { midi := 71, velocity := 97, time := 8 }
      c5State 1 none rfl (by decide) (by decide) (by decide) rfl).1,
    (early_close_immediate DEFAULTS dNone Hand.R { midi := 71, velocity := 97, time := 8 }
      c5State 1 none rfl (by decide) (by decide) (by decide) rfl).2.2.1⟩

/-- C10 (confirmed): the velocities list of an emitted `ChordEvent` has
exactly one entry per note that arrived in the window, in arrival order
(it is the arrival-ordered image of the buffered notes under the blend);
hence when at least one sustained active note of the hand is folded into
the note set (`sustainIncludesBuffer`), the velocities list is strictly
shorter than the sorted notes list, so the two lists are not
index-aligned. -/
theorem velocities_arrival_aligned (cfg : Config) (detect : DetectFn) (hand : Hand)
    (now t0 : ℤ) (s : EngineState) (r : Option (List String))
    (h1 : (getBuf s hand).firstTime = some t0) (h0 : ¬ t0 = 0)
    (h3 : (getBuf s hand).notes.isEmpty = false)
    (hd : detect ((closedPcs cfg hand s).map pcToNote) = Except.ok r) :
    processBuffer cfg detect hand now s =
      Except.ok (closedState cfg hand s,
        [Event.chord (closedEvent cfg hand s now t0 (closedNir cfg hand s now t0 r))]) ∧
    (closedEvent cfg hand s now t0 (closedNir cfg hand s now t0 r)).velocities =
      (getBuf s hand).notes.map
        (fun n => blendVelocity n.velocity (median (rawVelocities (getBuf s hand).notes))
          (blendOf cfg hand)) ∧
    (cfg.sustainIncludesBuffer = true →
      s.activeNotes.any
        (fun an => decide (an.hand = hand) && an.sustained &&
          !(((getBuf s hand).notes.map (fun n => n.midi)).contains an.midi)) = true →
      (closedEvent cfg hand s now t0 (closedNir cfg hand s now t0 r)).velocities.length <
        (closedEvent cfg hand s now t0 (closedNir cfg hand s now t0 r)).notes.length) := by
  refine ⟨processBuffer_ok cfg detect hand now t0 s _ h1 h0 h3
    (nameInvRoot_ok_of cfg detect hand now t0 s r hd), rfl, ?_⟩
  intro hsus hany
  have hvlen : (closedEvent cfg hand s now t0 (closedNir cfg hand s now t0 r)).velocities.length =
      ((getBuf s hand).notes.map (fun n => n.midi)).length := by
    simp [closedEvent, normalizedVelocities]
  have hnlen : (closedEvent cfg hand s now t0 (closedNir cfg hand s now t0 r)).notes.length =
      (gatherNoteSet cfg hand s.activeNotes (getBuf s hand).notes).length := by
    simp [closedEvent, closedNotes, length_sortAsc]
  rw [hvlen, hnlen, gatherNoteSet, if_pos hsus]
  obtain ⟨an, hmem, hprops⟩ := List.any_eq_true.mp hany
  simp only [Bool.and_eq_true, decide_eq_true_eq, Bool.not_eq_true'] at hprops
  exact gatherFold_length_grow hand s.activeNotes _
    ⟨an, hmem, hprops.1.1, hprops.1.2, hprops.2⟩

/-- C10 witness: one buffered right-hand note plus a sustained right-hand
active note not in the buffer: one velocity entry, two note entries. -/
theorem velocities_arrival_aligned_witness :
    (getBuf c10State Hand.R).firstTime = some 3 ∧ ¬ (3 : ℤ) = 0 ∧
      (getBuf c10State Hand.R).notes.isEmpty = false ∧
      DEFAULTS.sustainIncludesBuffer = true ∧
      c10State.activeNotes.any
        (fun an => decide (an.hand = Hand.R) && an.sustained &&
          !(((getBuf c10State Hand.R).notes.map (fun n => n.midi)).contains an.midi)) = true ∧
      (closedEvent DEFAULTS Hand.R c10State 40 3
        (closedNir DEFAULTS Hand.R c10State 40 3 none)).velocities =
        (getBuf c10State Hand.R).notes.map
          (fun n => blendVelocity n.velocity (median (rawVelocities (getBuf c10State Hand.R).notes))
            (blendOf DEFAULTS Hand.R)) ∧
      (closedEvent DEFAULTS Hand.R c10State 40 3
        (closedNir DEFAULTS Hand.R c10State 40 3 none)).velocities.length <
        (closedEvent DEFAULTS Hand.R c10State 40 3
          (closedNir DEFAULTS Hand.R c10State 40 3 none)).notes.length :=
  ⟨rfl, by decide, rfl, rfl, by decide,
    (velocities_arrival_aligned DEFAULTS dNone Hand.R 40 3 c10State none rfl (by decide) rfl
      rfl).2.1,
    (velocities_arrival_aligned DEFAULTS dNone Hand.R 40 3 c10State none rfl (by decide) rfl
      rfl).2.2 rfl (by decide)⟩

/-- C4 (confirmed): with the default configuration, the note-ons
`(60, 100)`, `(64, 90)`, `(67, 95)` within 10ms — all at or above the
default split 60, hence right-hand — followed by the firing of the
right-hand window timer produce exactly one emitted `ChordEvent`, with
role `Chord`, pitch classes `[0, 4, 7]` and hand Right, for any
non-throwing answer of the naming collaborator. -/
theorem default_round_trip (detect : DetectFn) (r : Option (List String))
    (hd : detect ["C", "E", "G"] = Except.ok r) :
    execOps DEFAULTS detect c4Ops (initState DEFAULTS) =
      Except.ok (closedState DEFAULTS Hand.R c4Mid,
        [Event.chord (closedEvent DEFAULTS Hand.R c4Mid 51 1
          (closedNir DEFAULTS Hand.R c4Mid 51 1 r))]) ∧
    (closedEvent DEFAULTS Hand.R c4Mid 51 1 (closedNir DEFAULTS Hand.R c4Mid 51 1 r)).role =
      Role.Chord ∧
    (closedEvent DEFAULTS Hand.R c4Mid 51 1
      (closedNir DEFAULTS Hand.R c4Mid 51 1 r)).pitchClasses = [0, 4, 7] ∧
    (closedEvent DEFAULTS Hand.R c4Mid 51 1 (closedNir DEFAULTS Hand.R c4Mid 51 1 r)).hand =
      Hand.R := by
  have hd' : detect ((closedPcs DEFAULTS Hand.R c4Mid).map pcToNote) = Except.ok r := hd
  have hpb := processBuffer_ok DEFAULTS detect Hand.R 51 1 c4Mid
    (closedNir DEFAULTS Hand.R c4Mid 51 1 r) rfl (by decide) rfl
    (nameInvRoot_ok_of DEFAULTS detect Hand.R 51 1 c4Mid r hd')
  have hpre : execOps DEFAULTS detect
      [Op.noteOn 60 100 1, Op.noteOn 64 90 5, Op.noteOn 67 95 9] (initState DEFAULTS) =
      Except.ok (c4Mid, []) := by rfl
  have hfire : execOps DEFAULTS detect [Op.fire Hand.R 51] c4Mid =
      match processBuffer DEFAULTS detect Hand.R 51 c4Mid with
      | Except.error u => Except.error u
      | Except.ok p => Except.ok (p.1, p.2 ++ []) := by rfl
  refine ⟨?_, rfl, rfl, rfl⟩
  rw [show c4Ops = [Op.noteOn 60 100 1, Op.noteOn 64 90 5, Op.noteOn 67 95 9] ++
      [Op.fire Hand.R 51] from rfl,
    execOps_append, hpre]
  dsimp only
  rw [hfire, hpb]
  simp

/-- C4 witness: the round trip with a collaborator returning two candidate
names (of which the shortest, `C`, is chosen). -/
theorem default_round_trip_witness :
    dTwo ["C", "E", "G"] = Except.ok (some ["Cmaj", "C"]) ∧
      execOps DEFAULTS dTwo c4Ops (initState DEFAULTS) =
        Except.ok (closedState DEFAULTS Hand.R c4Mid,
          [Event.chord (closedEvent DEFAULTS Hand.R c4Mid 51 1
            (closedNir DEFAULTS Hand.R c4Mid 51 1 (some ["Cmaj", "C"])))]) ∧
      (closedEvent DEFAULTS Hand.R c4Mid 51 1
        (closedNir DEFAULTS Hand.R c4Mid 51 1 (some ["Cmaj", "C"]))).role = Role.Chord ∧
      (closedEvent DEFAULTS Hand.R c4Mid 51 1
        (closedNir DEFAULTS Hand.R c4Mid 51 1 (some ["Cmaj", "C"]))).pitchClasses = [0, 4, 7] ∧
      (closedEvent DEFAULTS Hand.R c4Mid 51 1
        (closedNir DEFAULTS Hand.R c4Mid 51 1 (some ["Cmaj", "C"]))).hand = Hand.R :=
  ⟨rfl, (default_round_trip dTwo (some ["Cmaj", "C"]) rfl).1,
    (default_round_trip dTwo (some ["Cmaj", "C"]) rfl).2.1,
    (default_round_trip dTwo (some ["Cmaj", "C"]) rfl).2.2.1,
    (default_round_trip dTwo (some ["Cmaj", "C"]) rfl).2.2.2⟩

/-- C9 witness: the two extremes at a concrete three-note window. -/
theorem velocity_blend_extremes_witness :
    blendOf c9Cfg Hand.R = 1 ∧ blendOf c9Cfg Hand.L = 0 ∧
      normalizedVelocities c9Cfg Hand.R c9Notes =
        c9Notes.map (fun _ => median (rawVelocities c9Notes)) ∧
      normalizedVelocities c9Cfg Hand.L c9Notes = c9Notes.map (fun n => n.velocity) :=
  ⟨rfl, rfl, (velocity_blend_extremes c9Cfg Hand.R c9Notes).1 rfl,
    (velocity_blend_extremes c9Cfg Hand.L c9Notes).2 rfl⟩

end MidiSpec
